import Mathlib

/-!
Verification development for the TOTP approval gate (`app.py`).

The program keeps an in-memory registry `pending_updates : dict[str, PendingUpdate]`
guarded by `state_lock`, a persisted digest map `state["digests"]`, a poll loop
(`check_for_updates` + `cleanup_expired`) and an HTTP approval handler
(`approve`).  The definitions below are a shallow embedding of those parts of
the source; Python dicts become association lists, wall-clock times become
integers (seconds), and the per-counter TOTP code generation of the `pyotp`
library is abstracted as a function parameter `gen : Int -> String` (the
window logic of `pyotp.TOTP.verify(code, valid_window=1)` is embedded
explicitly).
-/

namespace ApprovalGate

/-- `PendingUpdate` dataclass, `app.py` lines 77-92.  `detected_at` is the
creation timestamp in whole seconds. -/
structure PendingUpdate where
  image : String
  container : String
  app_dir : String
  old_digest : String
  new_digest : String
  detected_at : Int
  token : String
deriving DecidableEq

/-- Python `dict.get`: value stored at a key, `none` when absent. -/
def dictGet {α : Type} : List (String × α) → String → Option α
  | [], _ => none
  | p :: rest, k => if p.1 = k then some p.2 else dictGet rest k

/-- Python `dict[k] = v`: replace the value in place when the key exists,
append otherwise. -/
def dictInsert {α : Type} : List (String × α) → String → α → List (String × α)
  | [], k, v => [(k, v)]
  | p :: rest, k, v => if p.1 = k then (k, v) :: rest else p :: dictInsert rest k v

/-- Python `del d[k]` (applied when the key is present): drop the entry. -/
def dictDelete {α : Type} : List (String × α) → String → List (String × α)
  | [], _ => []
  | p :: rest, k => if p.1 = k then dictDelete rest k else p :: dictDelete rest k

/-- Python `s or default` for an optional string: `None` and `""` are falsy. -/
def pyOr (s : Option String) (dflt : String) : String :=
  match s with
  | some v => if v = "" then dflt else v
  | none => dflt

/-- The time-step length of `pyotp.TOTP` (default `interval`, 30 seconds). -/
def totpInterval : Nat := 30

/-- `pyotp` `timecode`: the counter for a wall-clock time in seconds. -/
def timecode (t : Int) : Int := t / (totpInterval : Int)

/-- `totp.verify(code, valid_window=1)` (`app.py` lines 629-630): the code is
accepted when it matches the generated code at the current counter or at one
counter before or after it.  `gen` abstracts the per-counter code generation
of the library (HMAC truncation), which is outside this repository. -/
def totpVerify (gen : Int → String) (code : String) (t : Int) : Bool :=
  decide (code = gen (timecode t - 1)) ||
  decide (code = gen (timecode t)) ||
  decide (code = gen (timecode t + 1))

/-- Outcome rendered to the HTTP caller by the `approve` handler. -/
inductive ApproveResult where
  | notFound
  | invalidCode
  | success
deriving DecidableEq

/-- Observable effects of one `approve` POST, in program order:
`save_state` (the digest-store write, line 635), `del pending_updates[token]`
(line 638), the `pull_and_restart` thread start (lines 640-644), and the
response returned to the caller (line 651). -/
inductive Ev where
  | digestWrite (image : String) (digest : String)
  | registryDelete (token : String)
  | spawnExecutor (image : String) (container : String)
  | ack (r : ApproveResult)
deriving DecidableEq

/-- Result of one sequential `approve` POST: the rendered result, the registry
and digest map afterwards, and the trace of effects in program order. -/
structure ApproveOut where
  result : ApproveResult
  pending : List (String × PendingUpdate)
  digests : List (String × String)
  events : List Ev
deriving DecidableEq

/-- The `approve` handler on a POST (`app.py` lines 614-658), sequential
semantics.  `t` is the wall-clock time in seconds.  The handler looks the
token up, verifies the code with `valid_window=1`, and on success writes the
digest store, deletes the registry entry and spawns the executor thread; no
expiry comparison appears anywhere in it. -/
def approve (gen : Int → String) (t : Int) (pending : List (String × PendingUpdate))
    (digests : List (String × String)) (tok code : String) : ApproveOut :=
  match dictGet pending tok with
  | none => ⟨.notFound, pending, digests, [.ack .notFound]⟩
  | some u =>
    if totpVerify gen code t then
      ⟨.success, dictDelete pending tok, dictInsert digests u.image u.new_digest,
        [.digestWrite u.image u.new_digest, .registryDelete tok,
         .spawnExecutor u.image u.container, .ack .success]⟩
    else
      ⟨.invalidCode, pending, digests, [.ack .invalidCode]⟩

/-- Index of the first occurrence of an event in a trace. -/
def evPos : List Ev → Ev → Nat
  | [], _ => 0
  | x :: rest, e => if x = e then 0 else evPos rest e + 1

/-- Folding a sequence of `approve` POSTs for one token over the registry and
digest map (the state reached after presenting `codes` one after another). -/
def approveSeq (gen : Int → String) (t : Int) (pending : List (String × PendingUpdate))
    (digests : List (String × String)) (tok : String) (codes : List String) :
    List (String × PendingUpdate) × List (String × String) :=
  codes.foldl
    (fun s c => ((approve gen t s.1 s.2 tok c).pending, (approve gen t s.1 s.2 tok c).digests))
    (pending, digests)

/-- One record of the monitored-image list (fields read at `app.py`
lines 422-424; missing keys default to `""`). -/
structure ImageEntry where
  image : String
  container : String
  app_dir : String
deriving DecidableEq

/-- Byte count passed to `secrets.token_urlsafe` when a token is generated
(`app.py` line 448: `token = secrets.token_urlsafe(32)`). -/
def tokenNBytes : Nat := 32

/-- The `PendingUpdate` constructed at `app.py` lines 449-457.  `known` is
`state["digests"].get(image)`; `old_digest` is `known_digest or "unknown"`.
The random token is passed in as a parameter (the source draws it from
`secrets.token_urlsafe(tokenNBytes)`). -/
def mkUpdate (e : ImageEntry) (known : Option String) (d : String) (now : Int)
    (tok : String) : PendingUpdate :=
  ⟨e.image, e.container, e.app_dir, pyOr known "unknown", d, now, tok⟩

/-- Registry `create`: construct the entry and store it under its token
(`app.py` lines 448-460, `pending_updates[token] = update`). -/
def createUpdate (pending : List (String × PendingUpdate)) (e : ImageEntry)
    (known : Option String) (d : String) (now : Int) (tok : String) :
    List (String × PendingUpdate) :=
  dictInsert pending tok (mkUpdate e known d now tok)

/-- Python `str.startswith`: the first characters of `s` are exactly `p`. -/
def strStartsWith (s p : String) : Bool :=
  s.data.take p.data.length == p.data

/-- `get_remote_digest` (`app.py` lines 118-144): a reference that does not
start with `"ghcr.io/"` yields `None` before any network call; `net`
abstracts the manifest HEAD request for supported references. -/
def get_remote_digest (net : String → Option String) (image : String) : Option String :=
  if strStartsWith image "ghcr.io/" then net image else none

/-- Registry state and notifications produced by one poll-cycle step. -/
structure CycleOut where
  pending : List (String × PendingUpdate)
  notified : List PendingUpdate
deriving DecidableEq

/-- Body of the per-image loop of `check_for_updates` (`app.py` lines
421-462).  `remote` is the digest fetched for `e.image` (`None` on failure);
Python `if not current_digest` also skips an empty string.  When the fetched
digest differs from the persisted one and no live entry already exists for
the same (image, digest) pair, a new entry is created and one notification
is dispatched; otherwise nothing changes. -/
def checkImage (digests : List (String × String)) (pending : List (String × PendingUpdate))
    (e : ImageEntry) (remote : Option String) (now : Int) (tok : String) : CycleOut :=
  if e.image = "" ∨ e.container = "" then ⟨pending, []⟩
  else
    match remote with
    | none => ⟨pending, []⟩
    | some d =>
      if d = "" then ⟨pending, []⟩
      else if dictGet digests e.image = some d then ⟨pending, []⟩
      else if pending.any (fun p => p.2.image == e.image && p.2.new_digest == d) then
        ⟨pending, []⟩
      else
        ⟨createUpdate pending e (dictGet digests e.image) d now tok,
         [mkUpdate e (dictGet digests e.image) d now tok]⟩

/-- `cleanup_expired` (`app.py` lines 465-478): first component is the
registry after the sweep, second the removed (expired) entries, those with
`now - detected_at > timeout`. -/
def cleanup_expired (pending : List (String × PendingUpdate)) (now timeout : Int) :
    List (String × PendingUpdate) × List (String × PendingUpdate) :=
  (pending.filter (fun p => !decide (now - p.2.detected_at > timeout)),
   pending.filter (fun p => decide (now - p.2.detected_at > timeout)))

/-- Arguments of one registry `create` call. -/
structure CreateReq where
  entry : ImageEntry
  known : Option String
  digest : String
  now : Int
  tok : String
deriving DecidableEq

/-- A sequence of registry `create` calls starting from an empty registry,
with no intervening consume or sweep. -/
def createMany (reqs : List CreateReq) : List (String × PendingUpdate) :=
  reqs.foldl (fun acc r => createUpdate acc r.entry r.known r.digest r.now r.tok) []

/-!
Two-thread interleaving model of the `approve` handler for concurrency
claims.  Each `Phase` step below is one atomic action of the handler; the two
lock-protected actions are the lookup (`app.py` lines 617-618) and the
delete (lines 637-638).  They are two separate acquisitions of `state_lock`
in the source, with the code check and the digest-store write between them,
so they appear as two separate steps here.  `del pending_updates[token]`
raises `KeyError` when the token is absent, which propagates out of the
handler (an HTTP 500): that is the `crashed` phase.
-/

/-- Program counter of one request-handling thread inside `approve`. -/
inductive Phase where
  | atLookup
  | atVerify (u : PendingUpdate)
  | atDigestWrite (u : PendingUpdate)
  | atDelete (u : PendingUpdate)
  | atSpawn (u : PendingUpdate)
  | doneSuccess
  | doneNotFound
  | doneInvalid
  | crashed
deriving DecidableEq

/-- State shared between the request-handling threads. -/
structure Shared where
  pending : List (String × PendingUpdate)
  digests : List (String × String)
  spawned : List (String × String)
deriving DecidableEq

/-- One atomic step of a thread running the `approve` POST handler for token
`tok` and presented code `code`. -/
def phaseStep (gen : Int → String) (t : Int) (tok code : String) (ph : Phase)
    (sh : Shared) : Phase × Shared :=
  match ph with
  | .atLookup =>
    match dictGet sh.pending tok with
    | none => (.doneNotFound, sh)
    | some u => (.atVerify u, sh)
  | .atVerify u => if totpVerify gen code t then (.atDigestWrite u, sh) else (.doneInvalid, sh)
  | .atDigestWrite u =>
    (.atDelete u, { sh with digests := dictInsert sh.digests u.image u.new_digest })
  | .atDelete u =>
    if sh.pending.any (fun p => p.1 == tok) then
      (.atSpawn u, { sh with pending := dictDelete sh.pending tok })
    else
      (.crashed, sh)
  | .atSpawn u => (.doneSuccess, { sh with spawned := sh.spawned ++ [(u.image, u.container)] })
  | ph => (ph, sh)

/-- Thread identifiers for two concurrent POSTs to the same approval URL. -/
inductive Tid where
  | A
  | B
deriving DecidableEq

/-- Combined state of the two threads and the shared registry. -/
structure Conc where
  sh : Shared
  tA : Phase
  tB : Phase
deriving DecidableEq

/-- Run one step of the scheduled thread. -/
def concStep (gen : Int → String) (t : Int) (tok code : String) (s : Conc) : Tid → Conc
  | .A => let r := phaseStep gen t tok code s.tA s.sh; ⟨r.2, r.1, s.tB⟩
  | .B => let r := phaseStep gen t tok code s.tB s.sh; ⟨r.2, s.tA, r.1⟩

/-- Run a whole schedule (an interleaving of the two threads). -/
def concRun (gen : Int → String) (t : Int) (tok code : String) (s : Conc)
    (sched : List Tid) : Conc :=
  sched.foldl (concStep gen t tok code) s

/-- A concrete code-generation function used for concrete evaluations. -/
def genC : Int → String := fun c => toString c

/-- A concrete pending entry used for concrete evaluations. -/
def u0 : PendingUpdate :=
  ⟨"ghcr.io/org/app", "appc", "", "sha256:aaa", "sha256:bbb", 0, "tk"⟩

/-- Initial state for the two-thread run: one live entry, both request
threads about to perform the locked lookup of the same token. -/
def concInit : Conc := ⟨⟨[("tk", u0)], [], []⟩, .atLookup, .atLookup⟩

/-- The interleaving where both lookups happen before the winner's delete:
thread A runs to completion after both threads have passed the lookup, then
thread B resumes. -/
def raceSched : List Tid :=
  [Tid.A, Tid.B, Tid.A, Tid.A, Tid.A, Tid.A, Tid.B, Tid.B, Tid.B]

/-- Two concrete create requests with distinct (image, digest) pairs and
distinct tokens, for concrete evaluations. -/
def reqsC : List CreateReq :=
  [⟨⟨"ghcr.io/org/app", "appc", ""⟩, some "sha256:aaa", "sha256:bbb", 0, "tk1"⟩,
   ⟨⟨"ghcr.io/org/web", "webc", ""⟩, none, "sha256:ccc", 5, "tk2"⟩]

/-- A concrete monitored entry whose image is not hosted on GHCR. -/
def eNonGhcr : ImageEntry := ⟨"docker.io/library/nginx", "web", ""⟩

-- Basic dictionary lemmas

theorem dictGet_dictDelete_self {α : Type} (m : List (String × α)) (k : String) :
    dictGet (dictDelete m k) k = none := by
  induction m with
  | nil => rfl
  | cons p rest ih =>
    by_cases h : p.1 = k
    · simpa [dictDelete, h]
    · simpa [dictDelete, dictGet, h]

theorem mem_dictInsert_self {α : Type} (m : List (String × α)) (k : String) (v : α) :
    (k, v) ∈ dictInsert m k v := by
  induction m with
  | nil => simp [dictInsert]
  | cons p rest ih =>
    by_cases h : p.1 = k
    · simp [dictInsert, h]
    · simp only [dictInsert, if_neg h, List.mem_cons]
      exact Or.inr ih

theorem dictInsert_of_not_mem {α : Type} (m : List (String × α)) (k : String) (v : α)
    (h : ∀ p ∈ m, p.1 ≠ k) : dictInsert m k v = m ++ [(k, v)] := by
  induction m with
  | nil => rfl
  | cons p rest ih =>
    have hp : p.1 ≠ k := h p (List.mem_cons_self p rest)
    simp only [dictInsert, if_neg hp, List.cons_append, List.cons.injEq, true_and]
    exact ih (fun q hq => h q (List.mem_cons_of_mem p hq))

theorem keyNodup_value_unique {α : Type} {m : List (String × α)}
    (h : (m.map Prod.fst).Nodup) {k : String} {a b : α}
    (ha : (k, a) ∈ m) (hb : (k, b) ∈ m) : a = b := by
  induction m with
  | nil => cases ha
  | cons p rest ih =>
    rw [List.map_cons, List.nodup_cons] at h
    have hnd : p.1 ∉ rest.map Prod.fst := h.1
    have hrest : (rest.map Prod.fst).Nodup := h.2
    rcases List.mem_cons.mp ha with ha1 | ha1
    · rcases List.mem_cons.mp hb with hb1 | hb1
      · rw [← ha1] at hb1
        exact (Prod.mk.injEq _ _ _ _ ▸ hb1.symm).2
      · exfalso
        apply hnd
        have : p.1 = k := by rw [← ha1]
        rw [this]
        exact List.mem_map.mpr ⟨(k, b), hb1, rfl⟩
    · rcases List.mem_cons.mp hb with hb1 | hb1
      · exfalso
        apply hnd
        have : p.1 = k := by rw [← hb1]
        rw [this]
        exact List.mem_map.mpr ⟨(k, a), ha1, rfl⟩
      · exact ih hrest ha1 hb1

theorem dictGet_eq_none_of_forall {α : Type} {m : List (String × α)} {k : String}
    (h : ∀ p ∈ m, p.1 ≠ k) : dictGet m k = none := by
  induction m with
  | nil => rfl
  | cons p rest ih =>
    have hp : p.1 ≠ k := h p (List.mem_cons_self p rest)
    rw [dictGet, if_neg hp]
    exact ih (fun q hq => h q (List.mem_cons_of_mem p hq))

-- Claim theorems

/-- C2: `consume` returns the entry at most once.  After an approval attempt
with a correct code has consumed the entry of a token, every later attempt on
that token — whatever code it presents — gets the not-found result, and that
is the same result the handler gives for any token with no registry entry at
all. -/
theorem consume_at_most_once (gen : Int → String) (t t' : Int)
    (pending : List (String × PendingUpdate)) (digests : List (String × String))
    (tok code code' : String)
    (h : (approve gen t pending digests tok code).result = ApproveResult.success) :
    (approve gen t' (approve gen t pending digests tok code).pending
        (approve gen t pending digests tok code).digests tok code').result
      = ApproveResult.notFound ∧
    ∀ p d tk c, dictGet p tk = none →
      (approve gen t' p d tk c).result = ApproveResult.notFound := by
  constructor
  · rcases hget : dictGet pending tok with _ | u
    · simp [approve, hget] at h
    · by_cases hv : totpVerify gen code t
      · simp [approve, hget, hv, dictGet_dictDelete_self]
      · simp [approve, hget, hv] at h
  · intro p d tk c hnone
    simp [approve, hnone]

/-- Witness for `consume_at_most_once` at a concrete input. -/
theorem consume_at_most_once_witness :
    (approve genC 60 (approve genC 60 [("tk", u0)] [] "tk" (genC (timecode 60))).pending
        (approve genC 60 [("tk", u0)] [] "tk" (genC (timecode 60))).digests "tk"
        (genC (timecode 60))).result = ApproveResult.notFound :=
  (consume_at_most_once genC 60 60 [("tk", u0)] [] "tk" (genC (timecode 60))
    (genC (timecode 60)) (by decide)).1

/-- C3 counterexample: an entry whose age (100000 s) exceeds the configured
timeout (3600 s, the default `APPROVAL_TIMEOUT`) and that no sweep has
removed is still consumed by a correct-code attempt — the handler returns
success and spawns the executor instead of returning not-found. -/
theorem expiry_not_checked_cex :
    (100000 : Int) - u0.detected_at > 3600 ∧
    (approve genC 100000 [("tk", u0)] [] "tk" (genC (timecode 100000))).result
      = ApproveResult.success ∧
    (approve genC 100000 [("tk", u0)] [] "tk" (genC (timecode 100000))).result
      ≠ ApproveResult.notFound ∧
    Ev.spawnExecutor u0.image u0.container
      ∈ (approve genC 100000 [("tk", u0)] [] "tk" (genC (timecode 100000))).events := by
  decide

/-- C3 amended: the `approve` handler applies no expiry check at consume
time.  A correct-code attempt on any entry still present in the registry
succeeds and spawns the executor, even when the entry's age already exceeds
the configured timeout; expiry is enforced only by the sweep. -/
theorem approve_ignores_expiry (gen : Int → String) (t timeout : Int)
    (pending : List (String × PendingUpdate)) (digests : List (String × String))
    (tok code : String) (u : PendingUpdate)
    (hu : dictGet pending tok = some u)
    (hage : t - u.detected_at > timeout)
    (hcode : totpVerify gen code t = true) :
    (approve gen t pending digests tok code).result = ApproveResult.success ∧
    Ev.spawnExecutor u.image u.container
      ∈ (approve gen t pending digests tok code).events := by
  simp [approve, hu, hcode]

/-- Witness for `approve_ignores_expiry` at a concrete input. -/
theorem approve_ignores_expiry_witness :
    (approve genC 100000 [("tk", u0)] [] "tk" (genC (timecode 100000))).result
      = ApproveResult.success :=
  (approve_ignores_expiry genC 100000 3600 [("tk", u0)] [] "tk"
    (genC (timecode 100000)) u0 (by decide) (by decide) (by decide)).1

/-- C4 counterexample: on a successful approval the digest-store write is not
sequenced after the registry deletion — in the handler's effect trace the
write comes first. -/
theorem digest_write_order_cex :
    (approve genC 60 [("tk", u0)] [] "tk" (genC (timecode 60))).result
      = ApproveResult.success ∧
    ¬ (evPos (approve genC 60 [("tk", u0)] [] "tk" (genC (timecode 60))).events
          (Ev.registryDelete "tk") <
       evPos (approve genC 60 [("tk", u0)] [] "tk" (genC (timecode 60))).events
          (Ev.digestWrite u0.image u0.new_digest)) := by
  decide

/-- C4 amended: on every approval attempt with a correct code the handler's
effect trace is exactly digest-store write, then registry deletion, then
executor spawn, then the success acknowledgement — so the digest write is
sequenced strictly before the registry consumption and completes before
success is acknowledged to the HTTP caller. -/
theorem digest_write_before_consume (gen : Int → String) (t : Int)
    (pending : List (String × PendingUpdate)) (digests : List (String × String))
    (tok code : String) (u : PendingUpdate)
    (hu : dictGet pending tok = some u)
    (hcode : totpVerify gen code t = true) :
    (approve gen t pending digests tok code).events =
      [Ev.digestWrite u.image u.new_digest, Ev.registryDelete tok,
       Ev.spawnExecutor u.image u.container, Ev.ack ApproveResult.success] ∧
    evPos (approve gen t pending digests tok code).events
        (Ev.digestWrite u.image u.new_digest) <
      evPos (approve gen t pending digests tok code).events (Ev.registryDelete tok) ∧
    evPos (approve gen t pending digests tok code).events
        (Ev.digestWrite u.image u.new_digest) <
      evPos (approve gen t pending digests tok code).events (Ev.ack ApproveResult.success) := by
  have he : (approve gen t pending digests tok code).events =
      [Ev.digestWrite u.image u.new_digest, Ev.registryDelete tok,
       Ev.spawnExecutor u.image u.container, Ev.ack ApproveResult.success] := by
    simp [approve, hu, hcode]
  refine ⟨he, ?_, ?_⟩
  · rw [he]; simp [evPos]
  · rw [he]; simp [evPos]

/-- Witness for `digest_write_before_consume` at a concrete input. -/
theorem digest_write_before_consume_witness :
    (approve genC 60 [("tk", u0)] [] "tk" (genC (timecode 60))).events =
      [Ev.digestWrite u0.image u0.new_digest, Ev.registryDelete "tk",
       Ev.spawnExecutor u0.image u0.container, Ev.ack ApproveResult.success] :=
  (digest_write_before_consume genC 60 [("tk", u0)] [] "tk" (genC (timecode 60)) u0
    (by decide) (by decide)).1

/-- C8: a failed code-check is a no-op.  A wrong-code attempt on a live entry
returns the invalid-code result, changes neither the registry nor the digest
store and spawns no executor; after any number of wrong-code attempts the
state is unchanged and a correct-code attempt still succeeds. -/
theorem failed_code_noop (gen : Int → String) (t : Int)
    (pending : List (String × PendingUpdate)) (digests : List (String × String))
    (tok : String) (u : PendingUpdate) (badCodes : List String) (goodCode : String)
    (hu : dictGet pending tok = some u)
    (hbad : ∀ c ∈ badCodes, totpVerify gen c t = false)
    (hgood : totpVerify gen goodCode t = true) :
    (∀ c ∈ badCodes, approve gen t pending digests tok c =
        ⟨ApproveResult.invalidCode, pending, digests, [Ev.ack ApproveResult.invalidCode]⟩) ∧
    approveSeq gen t pending digests tok badCodes = (pending, digests) ∧
    (approve gen t pending digests tok goodCode).result = ApproveResult.success ∧
    Ev.spawnExecutor u.image u.container
      ∈ (approve gen t pending digests tok goodCode).events := by
  have hseq : ∀ cs : List String, (∀ c ∈ cs, totpVerify gen c t = false) →
      approveSeq gen t pending digests tok cs = (pending, digests) := by
    intro cs
    induction cs with
    | nil => intro _; rfl
    | cons c rest ih =>
      intro hcs
      have h1 : approve gen t pending digests tok c =
          ⟨ApproveResult.invalidCode, pending, digests, [Ev.ack ApproveResult.invalidCode]⟩ := by
        simp [approve, hu, hcs c (List.mem_cons_self c rest)]
      have hstep : approveSeq gen t pending digests tok (c :: rest)
          = approveSeq gen t (approve gen t pending digests tok c).pending
              (approve gen t pending digests tok c).digests tok rest := rfl
      rw [hstep, h1]
      exact ih (fun c' hc' => hcs c' (List.mem_cons_of_mem c hc'))
  refine ⟨?_, hseq badCodes hbad, ?_, ?_⟩
  · intro c hc
    simp [approve, hu, hbad c hc]
  · simp [approve, hu, hgood]
  · simp [approve, hu, hgood]

/-- Witness for `failed_code_noop` at a concrete input: three wrong codes,
then the correct one. -/
theorem failed_code_noop_witness :
    approveSeq genC 60 [("tk", u0)] [] "tk" ["000000", "111111", "999999"]
      = ([("tk", u0)], []) ∧
    (approve genC 60 [("tk", u0)] [] "tk" (genC (timecode 60))).result
      = ApproveResult.success := by
  have h := failed_code_noop genC 60 [("tk", u0)] [] "tk" u0
    ["000000", "111111", "999999"] (genC (timecode 60))
    (by decide) (by decide) (by decide)
  exact ⟨h.2.1, h.2.2.1⟩

/-- C10: a monitored entry whose image reference does not start with
`"ghcr.io/"` yields no digest from `get_remote_digest`, so the poll-cycle
step neither creates a pending approval nor dispatches a notification for
it, whatever the network would answer. -/
theorem non_ghcr_skipped (net : String → Option String)
    (digests : List (String × String)) (pending : List (String × PendingUpdate))
    (e : ImageEntry) (now : Int) (tok : String)
    (h : strStartsWith e.image "ghcr.io/" = false) :
    get_remote_digest net e.image = none ∧
    checkImage digests pending e (get_remote_digest net e.image) now tok
      = ⟨pending, []⟩ := by
  have hg : get_remote_digest net e.image = none := by
    simp [get_remote_digest, h]
  refine ⟨hg, ?_⟩
  rw [hg]
  by_cases h1 : e.image = "" ∨ e.container = ""
  · simp [checkImage, h1]
  · simp [checkImage, h1]

/-- Witness for `non_ghcr_skipped` at a concrete input. -/
theorem non_ghcr_skipped_witness :
    checkImage [] [] eNonGhcr (get_remote_digest (fun _ => some "sha256:zzz") eNonGhcr.image) 0 "tk"
      = ⟨[], []⟩ :=
  (non_ghcr_skipped (fun _ => some "sha256:zzz") [] [] eNonGhcr 0 "tk" (by decide)).2

/-- C6: code validation accepts exactly the window of the current time-step
and its immediate neighbors.  `totpVerify` accepts a code iff it equals the
generated code at the current counter or at one counter before or after; in
particular the previous-step and next-step codes are accepted, and the code
of a step `k` away with `2 ≤ |k|` is rejected whenever it differs from the
three in-window codes. -/
theorem totp_window (gen : Int → String) (t k : Int)
    (hk : 2 ≤ k.natAbs)
    (h1 : gen (timecode t + k) ≠ gen (timecode t - 1))
    (h2 : gen (timecode t + k) ≠ gen (timecode t))
    (h3 : gen (timecode t + k) ≠ gen (timecode t + 1)) :
    (∀ code, totpVerify gen code t = true ↔
      (code = gen (timecode t - 1) ∨ code = gen (timecode t) ∨
       code = gen (timecode t + 1))) ∧
    totpVerify gen (gen (timecode t - 1)) t = true ∧
    totpVerify gen (gen (timecode t + 1)) t = true ∧
    totpVerify gen (gen (timecode t + k)) t = false := by
  refine ⟨?_, ?_, ?_, ?_⟩
  · intro code; simp [totpVerify, or_assoc]
  · simp [totpVerify]
  · simp [totpVerify]
  · simp [totpVerify, h1, h2, h3]

/-- Witness for `totp_window` at a concrete input (`t = 90`, so the counter
is 3; the code two steps out is rejected). -/
theorem totp_window_witness :
    totpVerify genC (genC (timecode 90 - 1)) 90 = true ∧
    totpVerify genC (genC (timecode 90 + 1)) 90 = true ∧
    totpVerify genC (genC (timecode 90 + 2)) 90 = false := by
  have h := totp_window genC 90 2 (by decide) (by decide) (by decide) (by decide)
  exact ⟨h.2.1, h.2.2.1, h.2.2.2⟩

/-- C7: the sweep removes exactly the entries with `now - detected_at >
timeout`; an entry created at `detected_at` is removed by any sweep run
strictly later than `detected_at + timeout` (here `now`), and after that
sweep a consume attempt on its token returns not-found. -/
theorem sweep_removes_expired (gen : Int → String) (t' : Int)
    (pending : List (String × PendingUpdate)) (digests : List (String × String))
    (now timeout : Int) (tok code : String) (u : PendingUpdate)
    (hkeys : (pending.map Prod.fst).Nodup)
    (hmem : (tok, u) ∈ pending)
    (hexp : now > u.detected_at + timeout) :
    (∀ tk v, (tk, v) ∈ (cleanup_expired pending now timeout).1 ↔
      ((tk, v) ∈ pending ∧ ¬ (now - v.detected_at > timeout))) ∧
    (∀ tk v, (tk, v) ∈ (cleanup_expired pending now timeout).2 ↔
      ((tk, v) ∈ pending ∧ now - v.detected_at > timeout)) ∧
    dictGet (cleanup_expired pending now timeout).1 tok = none ∧
    (approve gen t' (cleanup_expired pending now timeout).1 digests tok code).result
      = ApproveResult.notFound := by
  have hnone : dictGet (cleanup_expired pending now timeout).1 tok = none := by
    apply dictGet_eq_none_of_forall
    intro p hp hk
    have hp' := List.mem_filter.mp hp
    have hkept : ¬ (now - p.2.detected_at > timeout) := by
      simpa using hp'.2
    have hpu : p.2 = u := by
      apply keyNodup_value_unique hkeys _ hmem
      have : p = (tok, p.2) := by
        rw [← hk]
      rw [← this]
      exact hp'.1
    rw [hpu] at hkept
    omega
  refine ⟨?_, ?_, hnone, ?_⟩
  · intro tk v
    simp [cleanup_expired, List.mem_filter]
  · intro tk v
    simp [cleanup_expired, List.mem_filter]
  · simp [approve, hnone]

/-- Witness for `sweep_removes_expired` at a concrete input (`now = 4000`,
default timeout 3600, entry created at 0). -/
theorem sweep_removes_expired_witness :
    dictGet (cleanup_expired [("tk", u0)] 4000 3600).1 "tk" = none ∧
    (approve genC 4000 (cleanup_expired [("tk", u0)] 4000 3600).1 [] "tk"
        (genC (timecode 4000))).result = ApproveResult.notFound := by
  have h := sweep_removes_expired genC 4000 [("tk", u0)] [] 4000 3600 "tk"
    (genC (timecode 4000)) u0 (by decide) (by decide) (by decide)
  exact ⟨h.2.2.1, h.2.2.2⟩

/-- C5: at most one live entry per (image, digest) pair.  A second poll-cycle
step that observes the same digest for the same monitored entry — whatever
its time and fresh token — leaves the registry exactly as the first step
left it and dispatches no notification. -/
theorem second_cycle_no_duplicate (digests : List (String × String))
    (pending : List (String × PendingUpdate)) (e : ImageEntry) (d : String)
    (now1 now2 : Int) (tok1 tok2 : String) :
    (checkImage digests (checkImage digests pending e (some d) now1 tok1).pending
        e (some d) now2 tok2).pending
      = (checkImage digests pending e (some d) now1 tok1).pending ∧
    (checkImage digests (checkImage digests pending e (some d) now1 tok1).pending
        e (some d) now2 tok2).notified = [] := by
  by_cases h1 : e.image = "" ∨ e.container = ""
  · simp [checkImage, h1]
  · by_cases h2 : d = ""
    · simp [checkImage, h1, h2]
    · by_cases h3 : dictGet digests e.image = some d
      · simp [checkImage, h1, h2, h3]
      · by_cases h4 : pending.any (fun p => p.2.image == e.image && p.2.new_digest == d) = true
        · simp [checkImage, h1, h2, h3, h4]
        · have hfst : (checkImage digests pending e (some d) now1 tok1).pending
              = createUpdate pending e (dictGet digests e.image) d now1 tok1 := by
            simp [checkImage, h1, h2, h3, h4]
          have hmem : (tok1, mkUpdate e (dictGet digests e.image) d now1 tok1)
              ∈ createUpdate pending e (dictGet digests e.image) d now1 tok1 :=
            mem_dictInsert_self pending tok1 _
          have hany : (createUpdate pending e (dictGet digests e.image) d now1 tok1).any
              (fun p => p.2.image == e.image && p.2.new_digest == d) = true := by
            apply List.any_eq_true.mpr
            exact ⟨_, hmem, by simp [mkUpdate]⟩
          rw [hfst]
          simp [checkImage, h1, h2, h3, hany]

/-- Folding `create` calls whose tokens are fresh (distinct among themselves
and from the accumulated keys) appends one entry per call, so the key list
of the resulting registry is the token list. -/
theorem createMany_keys_aux (reqs : List CreateReq) (acc : List (String × PendingUpdate))
    (hdisj : ∀ r ∈ reqs, ∀ p ∈ acc, p.1 ≠ r.tok)
    (hnd : (reqs.map CreateReq.tok).Nodup) :
    (reqs.foldl (fun a r => createUpdate a r.entry r.known r.digest r.now r.tok) acc).map
        Prod.fst
      = acc.map Prod.fst ++ reqs.map CreateReq.tok := by
  induction reqs generalizing acc with
  | nil => simp
  | cons r rest ih =>
    rw [List.map_cons, List.nodup_cons] at hnd
    have hstep : createUpdate acc r.entry r.known r.digest r.now r.tok
        = acc ++ [(r.tok, mkUpdate r.entry r.known r.digest r.now r.tok)] :=
      dictInsert_of_not_mem acc r.tok _
        (fun p hp => hdisj r (List.mem_cons_self r rest) p hp)
    have hdisj' : ∀ r' ∈ rest,
        ∀ p ∈ acc ++ [(r.tok, mkUpdate r.entry r.known r.digest r.now r.tok)],
        p.1 ≠ r'.tok := by
      intro r' hr' p hp
      rcases List.mem_append.mp hp with hpa | hpb
      · exact hdisj r' (List.mem_cons_of_mem r hr') p hpa
      · have hpe : p = (r.tok, mkUpdate r.entry r.known r.digest r.now r.tok) := by
          simpa using hpb
        rw [hpe]
        show r.tok ≠ r'.tok
        intro hEq
        apply hnd.1
        rw [hEq]
        exact List.mem_map.mpr ⟨r', hr', rfl⟩
    rw [List.foldl_cons, hstep, ih _ hdisj' hnd.2]
    simp

/-- C9: a sequence of `create` calls with pairwise-distinct (image, digest)
pairs and fresh tokens (pairwise distinct, as delivered by
`secrets.token_urlsafe`) leaves the registry with exactly one live entry per
call, keyed by exactly those tokens, which are pairwise distinct; and the
source draws every token from at least 32 random bytes
(`tokenNBytes = 32`). -/
theorem create_sequence_distinct_tokens (reqs : List CreateReq)
    (hpairs : (reqs.map (fun r => (r.entry.image, r.digest))).Nodup)
    (htoks : (reqs.map CreateReq.tok).Nodup) :
    (createMany reqs).map Prod.fst = reqs.map CreateReq.tok ∧
    ((createMany reqs).map Prod.fst).Nodup ∧
    (createMany reqs).length = reqs.length ∧
    32 ≤ tokenNBytes := by
  have hkeys : (createMany reqs).map Prod.fst = reqs.map CreateReq.tok := by
    have h := createMany_keys_aux reqs [] (by intro r _ p hp; cases hp) htoks
    simpa [createMany] using h
  refine ⟨hkeys, ?_, ?_, ?_⟩
  · rw [hkeys]; exact htoks
  · have h := congrArg List.length hkeys
    simpa using h
  · exact Nat.le_refl 32

/-- Witness for `create_sequence_distinct_tokens` at a concrete input. -/
theorem create_sequence_distinct_tokens_witness :
    (createMany reqsC).length = reqsC.length ∧
    ((createMany reqsC).map Prod.fst).Nodup := by
  have h := create_sequence_distinct_tokens reqsC (by decide) (by decide)
  exact ⟨h.2.2.1, h.2.1⟩

/-- C1: the consume step is not one indivisible remove-and-return.  The
handler acquires `state_lock` once for the lookup and again, later, for the
delete.  In the interleaving `raceSched`, after the first two steps both
threads have passed the lookup holding the same entry, which an atomic
remove-and-return would make impossible; the loser of the race then reaches
`crashed` (its `del pending_updates[token]` raises `KeyError`, an HTTP 500)
instead of the not-found response; the executor is still spawned exactly
once, because the exception aborts the loser before its spawn step. -/
theorem consume_not_atomic_bug :
    (concRun genC 60 "tk" (genC (timecode 60)) concInit [Tid.A, Tid.B]).tA
      = Phase.atVerify u0 ∧
    (concRun genC 60 "tk" (genC (timecode 60)) concInit [Tid.A, Tid.B]).tB
      = Phase.atVerify u0 ∧
    (concRun genC 60 "tk" (genC (timecode 60)) concInit raceSched).tA
      = Phase.doneSuccess ∧
    (concRun genC 60 "tk" (genC (timecode 60)) concInit raceSched).tB
      = Phase.crashed ∧
    (concRun genC 60 "tk" (genC (timecode 60)) concInit raceSched).tB
      ≠ Phase.doneNotFound ∧
    (concRun genC 60 "tk" (genC (timecode 60)) concInit raceSched).sh.spawned
      = [("ghcr.io/org/app", "appc")] := by
  decide

end ApprovalGate
